import Mathlib

/-
Verification of the commit-assistant repository against its specification.

The repository is Python; we embed its string-processing logic shallowly.
Python strings are modelled as `List Char`; `None`-able values as `Option`.
The modules embedded are `caa.py`, `direct_commit.py` and
`commit_assistant/direct_commit.py` (the three share `validate_commit_message`
and the diff-truncation snippet verbatim).
-/

namespace CommitAssistant

/-! ### Python string primitives on `List Char` -/

/-- `s.upper()`: ASCII uppercasing via `Char.toUpper`. -/
def pyUpper (s : List Char) : List Char := s.map Char.toUpper

/-- `s.lower()`: ASCII lowercasing via `Char.toLower`. -/
def pyLower (s : List Char) : List Char := s.map Char.toLower

/-- ASCII whitespace, as stripped by Python `str.strip()`. -/
def isPySpace (c : Char) : Bool :=
  c = ' ' ∨ c = '\t' ∨ c = '\n' ∨ c = '\r' ∨ c = '\x0b' ∨ c = '\x0c'

/-- `s.strip()`: remove leading and trailing whitespace. -/
def pyStrip (s : List Char) : List Char :=
  ((s.dropWhile isPySpace).reverse.dropWhile isPySpace).reverse

/-- `pat` is a prefix of `s` (used to locate substring occurrences). -/
def leadsWith : List Char → List Char → Bool
  | [], _ => true
  | _ :: _, [] => false
  | p :: ps, c :: cs => p = c && leadsWith ps cs

/-- Python `pat in s`: `pat` occurs as a contiguous substring of `s`. -/
def hasSub (pat : List Char) : List Char → Bool
  | [] => leadsWith pat []
  | c :: cs => leadsWith pat (c :: cs) || hasSub pat cs

/-- `s.split(sep)[0]` for a one-character separator: the prefix of `s`
before the first occurrence of `sep` (all of `s` if `sep` is absent). -/
def takeUntil (sep : Char) : List Char → List Char
  | [] => []
  | c :: cs => if c = sep then [] else c :: takeUntil sep cs

/-- Prepend a character to the first field of a split result. -/
def consHead (c : Char) : List (List Char) → List (List Char)
  | [] => [[c]]
  | l :: ls => (c :: l) :: ls

/-- `s.split(sep)` for a one-character separator, Python semantics:
`"".split(c) = [""]`, separators delimit possibly empty fields. -/
def splitOnChar (sep : Char) : List Char → List (List Char)
  | [] => [[]]
  | c :: cs =>
    if c = sep then [] :: splitOnChar sep cs
    else consHead c (splitOnChar sep cs)

/-- `"\n".join(lines)`. -/
def joinNl : List (List Char) → List Char
  | [] => []
  | [l] => l
  | l :: ls => l ++ '\n' :: joinNl ls

/-- Python `s.replace(old, new)` for non-empty `old`: replace every
non-overlapping occurrence, scanning left to right. -/
def pyReplace (old new : List Char) : List Char → List Char
  | [] => []
  | c :: cs =>
    if old ≠ [] ∧ leadsWith old (c :: cs) = true then
      new ++ pyReplace old new ((c :: cs).drop old.length)
    else
      c :: pyReplace old new cs
termination_by s => s.length
decreasing_by
  · simp only [List.length_drop, List.length_cons]
    have hold : 0 < old.length := by
      cases old with
      | nil => simp at *
      | cons _ _ => simp
    omega
  · simp

/-- Python `s.split(sep, 1)` for a non-empty string separator: the part
before the first occurrence, and (when the separator occurs) the rest. -/
def splitFirstSub (sep : List Char) : List Char → List Char × Option (List Char)
  | [] => ([], none)
  | c :: cs =>
    if leadsWith sep (c :: cs) = true then ([], some ((c :: cs).drop sep.length))
    else
      let p := splitFirstSub sep cs
      (c :: p.1, p.2)

/-- Python truthiness of an optional string (`None` and `""` are falsy). -/
def truthy : Option (List Char) → Bool
  | none => false
  | some s => !s.isEmpty

end CommitAssistant

namespace CommitAssistant

/-! ### Configuration and the message validator -/

/-- The `commit:` section of `config.yaml`: allowed semantic types and the
maximum header length (YAML integers are unbounded, hence `Int`). -/
structure CommitConfig where
  types : List (List Char)
  max_header_length : Int

/-- `validate_commit_message(message, config)`, identical in `caa.py`,
`direct_commit.py` and `commit_assistant/direct_commit.py`:
rejects an empty message or an over-long first line, then extracts
`message.split(":")[0].split("(")[0] if ":" in message else ""` and
tests membership in `config["commit"]["types"]`. -/
def validate_commit_message (message : List Char) (config : CommitConfig) : Bool :=
  if message = [] ∨ ((takeUntil '\n' message).length : Int) > config.max_header_length then
    false
  else
    let commit_type :=
      if message.contains ':' then takeUntil '(' (takeUntil ':' message) else []
    decide (commit_type ∈ config.types)

/-- The type extraction the code actually performs: the whole message is
split at the first colon, then truncated at the first parenthesis. -/
def codeExtractType (message : List Char) : List Char :=
  if message.contains ':' then takeUntil '(' (takeUntil ':' message) else []

/-- Modelled from the spec wording of claim C1 (for comparison with the
code): the type is extracted from the header (first line) only. -/
def specExtractType (message : List Char) : List Char :=
  let header := takeUntil '\n' message
  if header.contains ':' then takeUntil '(' (takeUntil ':' header) else []

/-- A sample configuration used by concrete witnesses. -/
def sampleConfig : CommitConfig :=
  { types := ["feat".data, "fix".data], max_header_length := 50 }

/-- C1: the claim fails because the colon test and the split run over the
whole message, not the header. Concrete input: message `"feat(a\nb): x"`
with types `{feat, fix}`. Its header `"feat(a"` contains no colon, so the
claim says the extracted type is `""` and validation must fail; the code
extracts `"feat"` from the whole message and accepts. -/
theorem C1_counterexample :
    ("feat(a\nb): x".data ≠ ([] : List Char)) ∧
    ((takeUntil '\n' ("feat(a\nb): x".data)).length : Int) ≤ sampleConfig.max_header_length ∧
    validate_commit_message ("feat(a\nb): x".data) sampleConfig = true ∧
    specExtractType ("feat(a\nb): x".data) ∉ sampleConfig.types := by
  refine ⟨by decide, by decide, by decide, by decide⟩

/-- C1 (amended): for a non-empty message whose first line is within
`max_header_length`, validation succeeds iff the type extracted from the
whole message — before the first colon, truncated at the first `(`, empty
when the message has no colon — belongs to `config.types`. -/
theorem C1_validate_iff_code_type (msg : List Char) (cfg : CommitConfig)
    (hne : msg ≠ [])
    (hlen : ((takeUntil '\n' msg).length : Int) ≤ cfg.max_header_length) :
    validate_commit_message msg cfg = true ↔ codeExtractType msg ∈ cfg.types := by
  unfold validate_commit_message codeExtractType
  rw [if_neg]
  · simp
  · push_neg
    exact ⟨hne, hlen⟩

/-- C1 witness: `validate("feat: add x")` with types `{feat, fix}`. -/
theorem C1_witness :
    validate_commit_message ("feat: add x".data) sampleConfig = true ↔
      codeExtractType ("feat: add x".data) ∈ sampleConfig.types :=
  C1_validate_iff_code_type ("feat: add x".data) sampleConfig (by decide) (by decide)

/-- C6: validation fails on the empty message, and fails whenever the
first line exceeds `max_header_length`, regardless of the type. -/
theorem C6_empty_or_long_header_rejected (msg : List Char) (cfg : CommitConfig) :
    (msg = [] → validate_commit_message msg cfg = false) ∧
    (((takeUntil '\n' msg).length : Int) > cfg.max_header_length →
      validate_commit_message msg cfg = false) := by
  constructor
  · intro h
    unfold validate_commit_message
    rw [if_pos (Or.inl h)]
  · intro h
    unfold validate_commit_message
    rw [if_pos (Or.inr h)]

/-- C6 witness: the empty message is rejected, and a 51-character header
with a valid type is rejected under `max_header_length = 50`. -/
theorem C6_witness :
    validate_commit_message [] sampleConfig = false ∧
    validate_commit_message ("feat: ".data ++ List.replicate 45 'x') sampleConfig = false :=
  ⟨(C6_empty_or_long_header_rejected [] sampleConfig).1 rfl,
   (C6_empty_or_long_header_rejected ("feat: ".data ++ List.replicate 45 'x')
      sampleConfig).2 (by decide)⟩

/-! ### The diff simplifier -/

/-- The literal truncation marker of the simplification snippet. -/
def diffMarker : List Char := "... [diff truncated for API compatibility] ...".data

/-- The truncation step shared by all three modules: split the diff on
newlines, keep the first 10 and the last 10 lines, and join them around
the marker as in the source format string,
first, then a blank line, the marker, a blank line, then last. -/
def truncateDiff (d : List Char) : List Char :=
  joinNl ((splitOnChar '\n' d).take 10) ++
    '\n' :: '\n' :: (diffMarker ++ '\n' :: '\n' ::
      joinNl ((splitOnChar '\n' d).drop ((splitOnChar '\n' d).length - 10)))

/-- The guarded simplification `if len(diff) > threshold` around the
truncation; every call site passes `threshold = 1000`. -/
def simplify (d : List Char) (threshold : Nat) : List Char :=
  if d.length > threshold then truncateDiff d else d

/-! #### Lemmas about `splitOnChar` and `joinNl` -/

theorem splitOnChar_cons_self (sep : Char) (s : List Char) :
    splitOnChar sep (sep :: s) = [] :: splitOnChar sep s := by
  simp [splitOnChar]

theorem splitOnChar_cons_ne (sep c : Char) (s : List Char) (h : ¬ c = sep) :
    splitOnChar sep (c :: s) = consHead c (splitOnChar sep s) := by
  simp [splitOnChar, h]

theorem splitOnChar_ne_nil (sep : Char) (s : List Char) : splitOnChar sep s ≠ [] := by
  induction s with
  | nil => simp [splitOnChar]
  | cons c cs ih =>
    by_cases h : c = sep
    · subst h
      rw [splitOnChar_cons_self]
      simp
    · rw [splitOnChar_cons_ne sep c cs h]
      cases hr : splitOnChar sep cs with
      | nil => simp [consHead]
      | cons l ls => simp [consHead]

theorem splitOnChar_of_not_mem (sep : Char) (s : List Char) (h : sep ∉ s) :
    splitOnChar sep s = [s] := by
  induction s with
  | nil => rfl
  | cons c cs ih =>
    have hc : ¬ c = sep := fun hh => h (hh ▸ List.mem_cons_self c cs)
    rw [splitOnChar_cons_ne sep c cs hc, ih (fun hm => h (List.mem_cons_of_mem c hm))]
    rfl

theorem splitOnChar_append_cons (sep : Char) (xs ys : List Char) :
    splitOnChar sep (xs ++ sep :: ys) = splitOnChar sep xs ++ splitOnChar sep ys := by
  induction xs with
  | nil =>
    rw [List.nil_append, splitOnChar_cons_self]
    rfl
  | cons c cs ih =>
    by_cases h : c = sep
    · subst h
      rw [List.cons_append, splitOnChar_cons_self, splitOnChar_cons_self, ih]
      rfl
    · rw [List.cons_append, splitOnChar_cons_ne sep c _ h, splitOnChar_cons_ne sep c _ h, ih]
      cases hr : splitOnChar sep cs with
      | nil => exact absurd hr (splitOnChar_ne_nil sep cs)
      | cons t ts => simp [consHead]

theorem not_mem_of_mem_splitOnChar (sep : Char) (s : List Char) :
    ∀ l ∈ splitOnChar sep s, sep ∉ l := by
  induction s with
  | nil =>
    intro l hl
    simp [splitOnChar] at hl
    simp [hl]
  | cons c cs ih =>
    intro l hl
    by_cases h : c = sep
    · subst h
      rw [splitOnChar_cons_self] at hl
      rcases List.mem_cons.mp hl with h1 | h1
      · simp [h1]
      · exact ih l h1
    · rw [splitOnChar_cons_ne sep c cs h] at hl
      cases hr : splitOnChar sep cs with
      | nil => exact absurd hr (splitOnChar_ne_nil sep cs)
      | cons t ts =>
        rw [hr] at hl
        rcases List.mem_cons.mp hl with h1 | h1
        · subst h1
          intro hmem
          rcases List.mem_cons.mp hmem with h2 | h2
          · exact h h2.symm
          · exact ih t (by rw [hr]; exact List.mem_cons_self t ts) h2
        · exact ih l (by rw [hr]; exact List.mem_cons_of_mem t h1)

theorem joinNl_splitOnChar (s : List Char) : joinNl (splitOnChar '\n' s) = s := by
  induction s with
  | nil => rfl
  | cons c cs ih =>
    by_cases h : c = '\n'
    · subst h
      rw [splitOnChar_cons_self]
      cases hr : splitOnChar '\n' cs with
      | nil => exact absurd hr (splitOnChar_ne_nil _ _)
      | cons t ts =>
        rw [hr] at ih
        show [] ++ '\n' :: joinNl (t :: ts) = '\n' :: cs
        rw [ih]
        rfl
    · rw [splitOnChar_cons_ne _ c cs h]
      cases hr : splitOnChar '\n' cs with
      | nil => exact absurd hr (splitOnChar_ne_nil _ _)
      | cons t ts =>
        rw [hr] at ih
        cases ts with
        | nil =>
          show c :: t = c :: cs
          rw [show joinNl [t] = t from rfl] at ih
          rw [ih]
        | cons u us =>
          show (c :: t) ++ '\n' :: joinNl (u :: us) = c :: cs
          rw [show joinNl (t :: u :: us) = t ++ '\n' :: joinNl (u :: us) from rfl] at ih
          rw [← ih]
          rfl

theorem splitOnChar_joinNl (L : List (List Char)) (hne : L ≠ [])
    (hfree : ∀ l ∈ L, '\n' ∉ l) :
    splitOnChar '\n' (joinNl L) = L := by
  induction L with
  | nil => exact absurd rfl hne
  | cons x xs ih =>
    cases xs with
    | nil =>
      show splitOnChar '\n' x = [x]
      exact splitOnChar_of_not_mem _ x (hfree x (by simp))
    | cons y ys =>
      rw [show joinNl (x :: y :: ys) = x ++ '\n' :: joinNl (y :: ys) from rfl]
      rw [splitOnChar_append_cons, splitOnChar_of_not_mem _ x (hfree x (by simp)),
        ih (by simp) (fun l hl => hfree l (List.mem_cons_of_mem x hl))]
      rfl

/-- The line decomposition of a truncated diff: the first 10 lines, a
blank line, the marker, a blank line, then the last 10 lines. -/
theorem lines_truncateDiff (d : List Char) :
    splitOnChar '\n' (truncateDiff d) =
      (splitOnChar '\n' d).take 10 ++ [] :: diffMarker :: [] ::
        (splitOnChar '\n' d).drop ((splitOnChar '\n' d).length - 10) := by
  have hfree1 : ∀ l ∈ (splitOnChar '\n' d).take 10, '\n' ∉ l :=
    fun l hl => not_mem_of_mem_splitOnChar '\n' d l (List.mem_of_mem_take hl)
  have hfree2 : ∀ l ∈ (splitOnChar '\n' d).drop ((splitOnChar '\n' d).length - 10), '\n' ∉ l :=
    fun l hl => not_mem_of_mem_splitOnChar '\n' d l (List.mem_of_mem_drop hl)
  have hne : splitOnChar '\n' d ≠ [] := splitOnChar_ne_nil '\n' d
  have hne1 : (splitOnChar '\n' d).take 10 ≠ [] := by
    cases hs : splitOnChar '\n' d with
    | nil => exact absurd hs hne
    | cons a as => simp
  have hne2 : (splitOnChar '\n' d).drop ((splitOnChar '\n' d).length - 10) ≠ [] := by
    intro hh
    have hle := List.drop_eq_nil_iff.mp hh
    have h0 : (splitOnChar '\n' d).length ≠ 0 := by
      intro h0
      exact hne (List.length_eq_zero.mp h0)
    omega
  unfold truncateDiff
  rw [splitOnChar_append_cons, splitOnChar_cons_self, splitOnChar_append_cons,
    splitOnChar_cons_self, splitOnChar_joinNl _ hne1 hfree1,
    splitOnChar_joinNl _ hne2 hfree2, splitOnChar_of_not_mem _ diffMarker (by decide)]
  rfl

/-- Truncating a diff whose line count is at most 10 duplicates it around
the marker. -/
theorem truncateDiff_of_few_lines (x : List Char)
    (h : (splitOnChar '\n' x).length ≤ 10) :
    truncateDiff x = x ++ '\n' :: '\n' :: (diffMarker ++ '\n' :: '\n' :: x) := by
  unfold truncateDiff
  rw [List.take_of_length_le h, Nat.sub_eq_zero_of_le h, List.drop_zero,
    joinNl_splitOnChar]

/-- Truncation is stable on diffs with at least 10 lines. -/
theorem truncateDiff_stable (d : List Char)
    (hn : 10 ≤ (splitOnChar '\n' d).length) :
    truncateDiff (truncateDiff d) = truncateDiff d := by
  have hA : ((splitOnChar '\n' d).take 10).length = 10 := by
    rw [List.length_take]
    omega
  have hB : ((splitOnChar '\n' d).drop ((splitOnChar '\n' d).length - 10)).length = 10 := by
    rw [List.length_drop]
    omega
  have hl5 : splitOnChar '\n' (truncateDiff d) =
      ((splitOnChar '\n' d).take 10 ++ [[], diffMarker, []]) ++
        (splitOnChar '\n' d).drop ((splitOnChar '\n' d).length - 10) := by
    rw [lines_truncateDiff d, List.append_assoc]
    rfl
  have hlen23 : (splitOnChar '\n' (truncateDiff d)).length = 23 := by
    rw [hl5]
    simp [hA, hB]
  have htake : (splitOnChar '\n' (truncateDiff d)).take 10 = (splitOnChar '\n' d).take 10 := by
    rw [hl5, List.append_assoc]
    exact List.take_left' hA
  have hdrop : (splitOnChar '\n' (truncateDiff d)).drop
      ((splitOnChar '\n' (truncateDiff d)).length - 10) =
      (splitOnChar '\n' d).drop ((splitOnChar '\n' d).length - 10) := by
    rw [hlen23, hl5]
    exact List.drop_left' (by simp [hA])
  show joinNl ((splitOnChar '\n' (truncateDiff d)).take 10) ++
      '\n' :: '\n' :: (diffMarker ++ '\n' :: '\n' ::
        joinNl ((splitOnChar '\n' (truncateDiff d)).drop
          ((splitOnChar '\n' (truncateDiff d)).length - 10))) = truncateDiff d
  rw [htake, hdrop]
  rfl

/-! #### Claims C3, C4, C5 -/

/-- C4: a diff whose total character length is at or below the threshold
is returned unchanged. -/
theorem C4_simplify_identity_below_threshold (d : List Char) (t : Nat)
    (h : d.length ≤ t) : simplify d t = d := by
  unfold simplify
  rw [if_neg (by omega)]

/-- C4 witness at a concrete small diff. -/
theorem C4_witness : simplify ("diff --git a b".data) 1000 = "diff --git a b".data :=
  C4_simplify_identity_below_threshold ("diff --git a b".data) 1000 (by decide)

/-- C5: the claim fails because the code writes a blank line before and
after the marker (the format string joins with two newlines on each side),
so the result is not only the first 10 lines, the marker line, and the
last 10 lines. Concrete input: the one-line diff `"a"` over threshold 0. -/
theorem C5_counterexample :
    ("a".data).length > 0 ∧
    splitOnChar '\n' (simplify ("a".data) 0) ≠
      (splitOnChar '\n' ("a".data)).take 10 ++ diffMarker ::
        (splitOnChar '\n' ("a".data)).drop ((splitOnChar '\n' ("a".data)).length - 10) := by
  exact ⟨by decide, by decide⟩

/-- C5 (amended): for a diff over the threshold, the result is exactly:
the first 10 lines, an empty line, the literal marker line, an empty
line, then the last 10 lines, and nothing else. -/
theorem C5_truncated_diff_shape (d : List Char) (t : Nat) (h : d.length > t) :
    splitOnChar '\n' (simplify d t) =
      (splitOnChar '\n' d).take 10 ++ [] :: diffMarker :: [] ::
        (splitOnChar '\n' d).drop ((splitOnChar '\n' d).length - 10) := by
  unfold simplify
  rw [if_pos h]
  exact lines_truncateDiff d

/-- C5 witness at a concrete three-line diff over threshold 1. -/
theorem C5_witness :
    splitOnChar '\n' (simplify ("a\nb\nc".data) 1) =
      (splitOnChar '\n' ("a\nb\nc".data)).take 10 ++ [] :: diffMarker :: [] ::
        (splitOnChar '\n' ("a\nb\nc".data)).drop
          ((splitOnChar '\n' ("a\nb\nc".data)).length - 10) :=
  C5_truncated_diff_shape ("a\nb\nc".data) 1 (by decide)

/-- C3: idempotence at threshold 1000 fails on a single line of 1001
characters: the first pass duplicates the line around the marker into a
5-line, 2052-character diff, and the second pass truncates that again. -/
theorem C3_counterexample :
    simplify (simplify (List.replicate 1001 'a') 1000) 1000 ≠
      simplify (List.replicate 1001 'a') 1000 := by
  intro heq
  have hfree : '\n' ∉ List.replicate 1001 'a' := by
    intro hmem
    have h := List.eq_of_mem_replicate hmem
    exact absurd h (by decide)
  have h1 : splitOnChar '\n' (List.replicate 1001 'a') = [List.replicate 1001 'a'] :=
    splitOnChar_of_not_mem _ _ hfree
  have hrep : (List.replicate 1001 'a').length = 1001 := List.length_replicate 1001 'a'
  have hs : simplify (List.replicate 1001 'a') 1000 = truncateDiff (List.replicate 1001 'a') := by
    unfold simplify
    rw [if_pos (by omega)]
  have h3 : truncateDiff (List.replicate 1001 'a') =
      List.replicate 1001 'a' ++ '\n' :: '\n' ::
        (diffMarker ++ '\n' :: '\n' :: List.replicate 1001 'a') :=
    truncateDiff_of_few_lines _
      (by rw [h1]; simp only [List.length_cons, List.length_nil]; omega)
  have hm : diffMarker.length = 46 := by decide
  have hlen2 : (truncateDiff (List.replicate 1001 'a')).length = 2052 := by
    rw [h3]
    simp only [List.length_append, List.length_cons, hm, hrep]
  have h5 : splitOnChar '\n' (truncateDiff (List.replicate 1001 'a')) =
      [List.replicate 1001 'a', [], diffMarker, [], List.replicate 1001 'a'] := by
    rw [lines_truncateDiff, h1]
    rw [List.take_of_length_le (by simp only [List.length_cons, List.length_nil]; omega)]
    rw [show ([List.replicate 1001 'a'] : List (List Char)).length - 10 = 0 from rfl]
    rw [List.drop_zero]
    rfl
  have hs2 : simplify (truncateDiff (List.replicate 1001 'a')) 1000 =
      truncateDiff (truncateDiff (List.replicate 1001 'a')) := by
    unfold simplify
    rw [if_pos (by omega)]
  have h7 : truncateDiff (truncateDiff (List.replicate 1001 'a')) =
      truncateDiff (List.replicate 1001 'a') ++ '\n' :: '\n' ::
        (diffMarker ++ '\n' :: '\n' :: truncateDiff (List.replicate 1001 'a')) :=
    truncateDiff_of_few_lines _
      (by rw [h5]; simp only [List.length_cons, List.length_nil]; omega)
  rw [hs, hs2, h7] at heq
  have hcontra := congrArg List.length heq
  simp only [List.length_append, List.length_cons, hm] at hcontra
  omega

/-- C3 (amended): `simplify(·, 1000)` is idempotent on every diff that is
within the threshold or has at least 10 lines; in general idempotence
fails (see the counterexample, a 1001-character single-line diff). -/
theorem C3_simplify_idempotent_amended (d : List Char)
    (h : d.length ≤ 1000 ∨ 10 ≤ (splitOnChar '\n' d).length) :
    simplify (simplify d 1000) 1000 = simplify d 1000 := by
  by_cases h1 : d.length ≤ 1000
  · have hd : simplify d 1000 = d := by
      unfold simplify
      rw [if_neg (by omega)]
    rw [hd, hd]
  · have hn : 10 ≤ (splitOnChar '\n' d).length := by
      rcases h with h | h
      · omega
      · exact h
    have hs : simplify d 1000 = truncateDiff d := by
      unfold simplify
      rw [if_pos (by omega)]
    rw [hs]
    unfold simplify
    split
    · exact truncateDiff_stable d hn
    · rfl

/-- C3 witness at a concrete 10-line diff. -/
theorem C3_witness :
    simplify (simplify ("1\n2\n3\n4\n5\n6\n7\n8\n9\n0".data) 1000) 1000 =
      simplify ("1\n2\n3\n4\n5\n6\n7\n8\n9\n0".data) 1000 :=
  C3_simplify_idempotent_amended ("1\n2\n3\n4\n5\n6\n7\n8\n9\n0".data)
    (Or.inr (by decide))

/-! ### Git and the direct-API commit command

`commit_assistant/direct_commit.py` drives: `load_config` (exit 1 when no
config file is found), `get_git_diff` (empty string on no changes or on
any git exception), the optional diff simplification, a hard-coded
`DEEPSEEK_API_KEY` lookup (exit 1 when falsy), one `call_deepseek_api`
call, and validation of the result. We track the observables the claims
speak about: exit status, number of chat-completion calls, which
environment variable is read for the key, whether `No changes detected`
is printed, which message is accepted, and the diff used by a retry. -/

/-- The repository state seen by `get_git_diff`: the git calls either
raise an exception or report staged/dirty state with the two diffs. -/
inductive GitState where
  | exc (msg : List Char)
  | repo (hasStaged : Bool) (stagedDiff : List Char) (dirty : Bool) (unstagedDiff : List Char)

/-- `get_git_diff()`: staged diff if any staged changes, else unstaged
diff if the worktree is dirty, else `""`; any exception yields `""`. -/
def get_git_diff : GitState → List Char
  | GitState.exc _ => []
  | GitState.repo hasStaged stagedDiff dirty unstagedDiff =>
    if hasStaged then stagedDiff else if dirty then unstagedDiff else []

/-- `caa.py get_agent`: the key is read from
`provider_config["name"].upper() + "_API_KEY"`. -/
def apiKeyEnvVar (providerName : List Char) : List Char :=
  pyUpper providerName ++ "_API_KEY".data

/-- The literal variable read by `commit_assistant/direct_commit.py`
(`commit` and `generate_pr_content`): always `DEEPSEEK_API_KEY`. -/
def deepseekKeyVar : List Char := "DEEPSEEK_API_KEY".data

/-- External inputs of one `commit` invocation of the direct module:
whether a config file is found, the provider name it carries (never
consulted by this module for the key), the commit section, the process
environment, the git state, and the outcome of `call_deepseek_api`
(`none` models a request or parse failure). -/
structure DirectEnv where
  configPresent : Bool
  providerName : List Char
  commitCfg : CommitConfig
  env : List Char → Option (List Char)
  git : GitState
  apiResponse : Option (List Char)

/-- Observables of one commit invocation. `stderr` diagnostics and the
decorative stdout around the generated message are not tracked. -/
structure CommitRun where
  exitCode : Nat
  networkCalls : Nat
  envVarRead : Option (List Char)
  printedNoChanges : Bool
  accepted : Option (List Char)
  retryDiff : Option (List Char)

/-- The `commit` command of `commit_assistant/direct_commit.py`. The
simplified-diff rewrite only changes the prompt, which no tracked
observable depends on, so it is omitted here. -/
def runDirectCommit (e : DirectEnv) (force : Bool) : CommitRun :=
  if e.configPresent = false then
    ⟨1, 0, none, false, none, none⟩
  else if get_git_diff e.git = [] then
    ⟨0, 0, none, true, none, none⟩
  else if truthy (e.env deepseekKeyVar) = false then
    ⟨1, 0, some deepseekKeyVar, false, none, none⟩
  else
    match e.apiResponse with
    | none => ⟨0, 1, some deepseekKeyVar, false, none, none⟩
    | some msg =>
      if validate_commit_message msg e.commitCfg = false ∧ force = false then
        ⟨0, 1, some deepseekKeyVar, false, none, none⟩
      else
        ⟨0, 1, some deepseekKeyVar, false, some msg, none⟩

/-! ### PR content generation -/

/-- `"\nDESCRIPTION:"`, the split marker used on the PR response. -/
def descMarker : List Char := "\nDESCRIPTION:".data

/-- `"TITLE:"`, removed from the first part of the PR response. -/
def titleTag : List Char := "TITLE:".data

/-- Result of `generate_pr_content`: which key variable was read, and the
optional title and description. -/
structure PrContent where
  envVarRead : List Char
  title : Option (List Char)
  description : Option (List Char)

/-- `generate_pr_content` of `commit_assistant/direct_commit.py`: reads
`DEEPSEEK_API_KEY` (returning `(None, None)` without exiting when it is
falsy), calls the API, and on a truthy response splits it once on
`"\nDESCRIPTION:"`; the title is the first part with `"TITLE:"` removed
and stripped, the description the stripped remainder or `""`. -/
def generate_pr_content (env : List Char → Option (List Char))
    (apiResult : Option (List Char)) : PrContent :=
  if truthy (env deepseekKeyVar) = false then
    ⟨deepseekKeyVar, none, none⟩
  else
    match apiResult with
    | none => ⟨deepseekKeyVar, none, none⟩
    | some response =>
      if response = [] then
        ⟨deepseekKeyVar, none, none⟩
      else
        ⟨deepseekKeyVar,
          some (pyStrip (pyReplace titleTag [] (splitFirstSub descMarker response).1)),
          some (match (splitFirstSub descMarker response).2 with
            | some rest => pyStrip rest
            | none => [])⟩

/-- The `pr` command's final check `if title and description:` — failure
(`Failed to generate PR content`) is reported unless both are truthy. -/
def prFailureReported (c : PrContent) : Bool :=
  !(truthy c.title && truthy c.description)

theorem splitFirstSub_of_no_sub (pat s : List Char) (h : hasSub pat s = false) :
    splitFirstSub pat s = (s, none) := by
  induction s with
  | nil => rfl
  | cons c cs ih =>
    have hor : (leadsWith pat (c :: cs) || hasSub pat cs) = false := h
    have h1 : leadsWith pat (c :: cs) = false := by
      cases hp : leadsWith pat (c :: cs)
      · rfl
      · rw [hp] at hor
        simp at hor
    have h2 : hasSub pat cs = false := by
      cases hp : hasSub pat cs
      · rfl
      · rw [hp] at hor
        simp at hor
    unfold splitFirstSub
    rw [if_neg (by rw [h1]; decide)]
    rw [ih h2]

/-! ### Concrete environments used by witnesses and counterexamples -/

/-- An environment with no variables set. -/
def noKeyEnv : List Char → Option (List Char) := fun _ => none

/-- An environment where only `DEEPSEEK_API_KEY` is set. -/
def dsKeyEnv : List Char → Option (List Char) :=
  fun v => if v = deepseekKeyVar then some ("key".data) else none

/-- An environment where only `OPENAI_API_KEY` is set. -/
def openaiEnv : List Char → Option (List Char) :=
  fun v => if v = "OPENAI_API_KEY".data then some ("sk-test".data) else none

/-- A direct-module invocation with provider `openai`, its key set, and a
non-empty staged diff. -/
def openaiDirectEnv : DirectEnv :=
  { configPresent := true
    providerName := "openai".data
    commitCfg := sampleConfig
    env := openaiEnv
    git := GitState.repo true ("diff --git".data) false []
    apiResponse := some ("feat: x".data) }

/-- A direct-module invocation with no key set and no changes. -/
def idleDirectEnv : DirectEnv :=
  { configPresent := true
    providerName := "deepseek".data
    commitCfg := sampleConfig
    env := noKeyEnv
    git := GitState.repo false [] false []
    apiResponse := none }

/-- A direct-module invocation whose git calls raise an exception. -/
def excDirectEnv : DirectEnv :=
  { configPresent := true
    providerName := "deepseek".data
    commitCfg := sampleConfig
    env := dsKeyEnv
    git := GitState.exc ("boom".data)
    apiResponse := none }

/-- A direct-module invocation with the deepseek key set and a staged
diff. -/
def dsDirectEnv : DirectEnv :=
  { configPresent := true
    providerName := "deepseek".data
    commitCfg := sampleConfig
    env := dsKeyEnv
    git := GitState.repo true ("diff --git".data) false []
    apiResponse := some ("feat: x".data) }

/-! #### Claims C2, C7, C9, C10 -/

/-- C2: the claim fails on the direct-API module. With provider name
`openai` and `OPENAI_API_KEY` set, the commit operation still exits
fatally because it reads the hard-coded `DEEPSEEK_API_KEY`, not
`uppercase(P) + "_API_KEY"`. -/
theorem C2_counterexample :
    truthy (openaiDirectEnv.env (apiKeyEnvVar ("openai".data))) = true ∧
    (runDirectCommit openaiDirectEnv false).exitCode = 1 ∧
    (runDirectCommit openaiDirectEnv false).networkCalls = 0 ∧
    (runDirectCommit openaiDirectEnv false).envVarRead = some deepseekKeyVar ∧
    some deepseekKeyVar ≠ some (apiKeyEnvVar ("openai".data)) := by
  exact ⟨by decide, by decide, by decide, by decide, by decide⟩

/-- C7: the claim fails when the API key is unset but the repository has
no changes: the commit command prints `No changes detected` and exits 0
without ever checking the key. -/
theorem C7_counterexample :
    truthy (idleDirectEnv.env deepseekKeyVar) = false ∧
    (runDirectCommit idleDirectEnv false).exitCode = 0 ∧
    (runDirectCommit idleDirectEnv false).networkCalls = 0 := by
  exact ⟨rfl, rfl, rfl⟩

/-- C7 (amended): a missing configuration file exits non-zero before any
network call; an unset (or empty) API key exits non-zero before any
network call provided a non-empty diff was obtained; with an empty diff
the command returns zero without a network call regardless of the key. -/
theorem C7_fatal_errors_amended (e : DirectEnv) (force : Bool) :
    (e.configPresent = false →
      (runDirectCommit e force).exitCode = 1 ∧
      (runDirectCommit e force).networkCalls = 0) ∧
    (e.configPresent = true → get_git_diff e.git ≠ [] →
      truthy (e.env deepseekKeyVar) = false →
      (runDirectCommit e force).exitCode = 1 ∧
      (runDirectCommit e force).networkCalls = 0) ∧
    (e.configPresent = true → get_git_diff e.git = [] →
      (runDirectCommit e force).exitCode = 0 ∧
      (runDirectCommit e force).networkCalls = 0) := by
  refine ⟨fun h1 => ?_, fun h1 h2 h3 => ?_, fun h1 h2 => ?_⟩
  · unfold runDirectCommit
    rw [if_pos h1]
    exact ⟨rfl, rfl⟩
  · unfold runDirectCommit
    rw [if_neg (by rw [h1]; decide), if_neg h2, if_pos h3]
    exact ⟨rfl, rfl⟩
  · unfold runDirectCommit
    rw [if_neg (by rw [h1]; decide), if_pos h2]
    exact ⟨rfl, rfl⟩

/-- C7 witness: a missing config file and a missing key on concrete
invocations. -/
theorem C7_witness :
    ((runDirectCommit { idleDirectEnv with configPresent := false } false).exitCode = 1 ∧
      (runDirectCommit { idleDirectEnv with configPresent := false } false).networkCalls = 0) ∧
    ((runDirectCommit { dsDirectEnv with env := noKeyEnv } false).exitCode = 1 ∧
      (runDirectCommit { dsDirectEnv with env := noKeyEnv } false).networkCalls = 0) :=
  ⟨(C7_fatal_errors_amended { idleDirectEnv with configPresent := false } false).1 rfl,
   (C7_fatal_errors_amended { dsDirectEnv with env := noKeyEnv } false).2.1 rfl
      (by decide) rfl⟩

/-- C9: when the git calls raise an exception, `get_git_diff` returns the
empty diff and the commit command prints `No changes detected`, makes no
network call and exits 0 — the same exit status as a clean repository. -/
theorem C9_git_failure_looks_clean (e : DirectEnv) (force : Bool) (m : List Char)
    (hgit : e.git = GitState.exc m) (hcfg : e.configPresent = true) :
    get_git_diff e.git = [] ∧
    (runDirectCommit e force).exitCode = 0 ∧
    (runDirectCommit e force).networkCalls = 0 ∧
    (runDirectCommit e force).printedNoChanges = true ∧
    (runDirectCommit e force).exitCode =
      (runDirectCommit { e with git := GitState.repo false [] false [] } force).exitCode := by
  have hdiff : get_git_diff e.git = [] := by rw [hgit]; rfl
  have hrun : runDirectCommit e force = ⟨0, 0, none, true, none, none⟩ := by
    unfold runDirectCommit
    rw [if_neg (by rw [hcfg]; decide), if_pos hdiff]
  have hrun2 : runDirectCommit { e with git := GitState.repo false [] false [] } force =
      ⟨0, 0, none, true, none, none⟩ := by
    unfold runDirectCommit
    rw [if_neg (by simp [hcfg]), if_pos (by simp [get_git_diff])]
  rw [hrun, hrun2]
  exact ⟨hdiff, rfl, rfl, rfl, rfl⟩

/-- C9 witness: a concrete invocation whose git calls raise. -/
theorem C9_witness :
    get_git_diff excDirectEnv.git = [] ∧
    (runDirectCommit excDirectEnv false).exitCode = 0 ∧
    (runDirectCommit excDirectEnv false).networkCalls = 0 ∧
    (runDirectCommit excDirectEnv false).printedNoChanges = true ∧
    (runDirectCommit excDirectEnv false).exitCode =
      (runDirectCommit { excDirectEnv with git := GitState.repo false [] false [] } false).exitCode :=
  C9_git_failure_looks_clean excDirectEnv false ("boom".data) rfl rfl

/-- C10: a non-empty response without the `"\nDESCRIPTION:"` marker
parses to an empty description, with the title being the response with
`"TITLE:"` occurrences removed and stripped; the `pr` command therefore
reports `Failed to generate PR content` regardless of the title. -/
theorem C10_missing_marker_fails (env : List Char → Option (List Char))
    (r : List Char) (hkey : truthy (env deepseekKeyVar) = true)
    (hne : r ≠ []) (hnomark : hasSub descMarker r = false) :
    (generate_pr_content env (some r)).description = some [] ∧
    (generate_pr_content env (some r)).title =
      some (pyStrip (pyReplace titleTag [] r)) ∧
    prFailureReported (generate_pr_content env (some r)) = true := by
  have hsplit : splitFirstSub descMarker r = (r, none) :=
    splitFirstSub_of_no_sub descMarker r hnomark
  unfold generate_pr_content
  rw [if_neg (by rw [hkey]; decide)]
  dsimp only
  rw [if_neg hne, hsplit]
  refine ⟨rfl, rfl, ?_⟩
  simp [prFailureReported, truthy]

/-! ### The agent-based commit command of `caa.py`

`caa.py commit` calls `agent.run(prompt)` once; if that raises, it may
extract a message from the error text (`code parsing` errors), and it
retries `agent.run` once with a truncated diff when the error looks like
a JSON/deserialization problem and `--simplified` was not already set. -/

/-- Outcome of one `agent.run(prompt)` call: the response text, or the
string of the raised exception. -/
inductive AgentOutcome where
  | ok (response : List Char)
  | err (errorStr : List Char)

def codeParsingTag : List Char := "code parsing".data

def snippetTag : List Char := "Here is your code snippet".data

def snippetColonTag : List Char := "Here is your code snippet:".data

def makeSureTag : List Char := "Make sure to include code".data

def deserializeTag : List Char := "deserialize".data

def jsonTag : List Char := "json".data

/-- Twelve spaces, the indentation probe of the extraction loop. -/
def twelveSpaces : List Char := List.replicate 12 ' '

/-- The indentation-stripping step of the extraction loop (dead in
practice — a stripped line cannot start with a space — but kept to match
the source). -/
def cleanIndent (cl : List Char) : List Char :=
  if cl.take 12 = twelveSpaces then cl.drop 12 else cl

/-- The extraction loop over the error lines: lines after the snippet
marker are stripped and collected until the `Make sure to include code`
line; marker lines are skipped, blank lines ignored. -/
def extractLines : List (List Char) → Bool → List (List Char)
  | [], _ => []
  | line :: rest, found =>
    if hasSub snippetColonTag line = true then extractLines rest true
    else if found = true ∧ pyStrip line ≠ [] ∧ hasSub makeSureTag line = false then
      cleanIndent (pyStrip line) :: extractLines rest found
    else if found = true ∧ hasSub makeSureTag line = true then []
    else extractLines rest found

/-- `"deserialize" in error.lower() or "json" in error.lower()`. -/
def jsonErrCond (e : List Char) : Bool :=
  hasSub deserializeTag (pyLower e) || hasSub jsonTag (pyLower e)

/-- External inputs of one `caa.py commit` invocation: config presence,
provider name, commit section, environment, whether agent construction
succeeds, git state, and the outcomes of the (up to two) agent runs. -/
structure CaaEnv where
  configPresent : Bool
  providerName : List Char
  commitCfg : CommitConfig
  env : List Char → Option (List Char)
  agentInitOk : Bool
  git : GitState
  firstRun : AgentOutcome
  secondRun : AgentOutcome

/-- The `commit` command of `caa.py`. The pre-call `--simplified` rewrite
only changes the prompt, so it is not tracked; the retry prompt is
`prompt.replace(diff, diff_summary)` with the unconditionally truncated
diff, recorded in `retryDiff`. -/
def runCaaCommit (e : CaaEnv) (simplified force : Bool) : CommitRun :=
  if e.configPresent = false then
    ⟨1, 0, none, false, none, none⟩
  else if get_git_diff e.git = [] then
    ⟨0, 0, none, true, none, none⟩
  else if truthy (e.env (apiKeyEnvVar e.providerName)) = false then
    ⟨1, 0, some (apiKeyEnvVar e.providerName), false, none, none⟩
  else if e.agentInitOk = false then
    ⟨1, 0, some (apiKeyEnvVar e.providerName), false, none, none⟩
  else
    match e.firstRun with
    | AgentOutcome.ok response =>
      if validate_commit_message (pyStrip response) e.commitCfg = false ∧ force = false then
        ⟨0, 1, some (apiKeyEnvVar e.providerName), false, none, none⟩
      else
        ⟨0, 1, some (apiKeyEnvVar e.providerName), false, some (pyStrip response), none⟩
    | AgentOutcome.err errStr =>
      if hasSub codeParsingTag errStr = true ∧ hasSub snippetTag errStr = true ∧
          extractLines (splitOnChar '\n' errStr) false ≠ [] ∧
          (validate_commit_message (joinNl (extractLines (splitOnChar '\n' errStr) false))
              e.commitCfg = true ∨ force = true) then
        ⟨0, 1, some (apiKeyEnvVar e.providerName), false,
          some (joinNl (extractLines (splitOnChar '\n' errStr) false)), none⟩
      else if simplified = false ∧ jsonErrCond errStr = true then
        match e.secondRun with
        | AgentOutcome.ok response2 =>
          if validate_commit_message (pyStrip response2) e.commitCfg = false ∧ force = false then
            ⟨0, 2, some (apiKeyEnvVar e.providerName), false, none,
              some (truncateDiff (get_git_diff e.git))⟩
          else
            ⟨0, 2, some (apiKeyEnvVar e.providerName), false, some (pyStrip response2),
              some (truncateDiff (get_git_diff e.git))⟩
        | AgentOutcome.err _ =>
          ⟨0, 2, some (apiKeyEnvVar e.providerName), false, none,
            some (truncateDiff (get_git_diff e.git))⟩
      else
        ⟨0, 1, some (apiKeyEnvVar e.providerName), false, none, none⟩

/-- Two network calls happen only on the retry path: `--simplified` unset,
a JSON/deserialization error from the first run, and the retry prompt
built from the unconditionally truncated diff. -/
theorem runCaaCommit_retry_inv (e : CaaEnv) (s f : Bool)
    (h2 : (runCaaCommit e s f).networkCalls = 2) :
    s = false ∧ ∃ err, e.firstRun = AgentOutcome.err err ∧ jsonErrCond err = true ∧
      (runCaaCommit e s f).retryDiff = some (truncateDiff (get_git_diff e.git)) := by
  unfold runCaaCommit at h2 ⊢
  by_cases hc : e.configPresent = false
  · rw [if_pos hc] at h2
    simp at h2
  rw [if_neg hc] at h2 ⊢
  by_cases hd : get_git_diff e.git = []
  · rw [if_pos hd] at h2
    simp at h2
  rw [if_neg hd] at h2 ⊢
  by_cases hk : truthy (e.env (apiKeyEnvVar e.providerName)) = false
  · rw [if_pos hk] at h2
    simp at h2
  rw [if_neg hk] at h2 ⊢
  by_cases ha : e.agentInitOk = false
  · rw [if_pos ha] at h2
    simp at h2
  rw [if_neg ha] at h2 ⊢
  cases hfr : e.firstRun with
  | ok response =>
    rw [hfr] at h2
    dsimp only at h2
    split at h2 <;> simp at h2
  | err errStr =>
    rw [hfr] at h2
    dsimp only at h2 ⊢
    by_cases hx : hasSub codeParsingTag errStr = true ∧ hasSub snippetTag errStr = true ∧
        extractLines (splitOnChar '\n' errStr) false ≠ [] ∧
        (validate_commit_message (joinNl (extractLines (splitOnChar '\n' errStr) false))
            e.commitCfg = true ∨ f = true)
    · rw [if_pos hx] at h2
      simp at h2
    rw [if_neg hx] at h2 ⊢
    by_cases hr : s = false ∧ jsonErrCond errStr = true
    · rw [if_pos hr] at h2 ⊢
      refine ⟨hr.1, errStr, rfl, hr.2, ?_⟩
      cases hsr : e.secondRun with
      | ok response2 =>
        dsimp only
        split <;> rfl
      | err e2 => rfl
    · rw [if_neg hr] at h2
      simp at h2

/-- C8: per invocation, `caa.py commit` makes at most two chat-completion
calls; two calls happen only when the first one fails with a
JSON/deserialization error class with `--simplified` unset, the retry
using the truncated diff; the direct module makes at most one call. -/
theorem C8_at_most_two_calls (e : CaaEnv) (d : DirectEnv) (s f fd : Bool) :
    (runCaaCommit e s f).networkCalls ≤ 2 ∧
    ((runCaaCommit e s f).networkCalls = 2 →
      s = false ∧ ∃ err, e.firstRun = AgentOutcome.err err ∧ jsonErrCond err = true ∧
        (runCaaCommit e s f).retryDiff = some (truncateDiff (get_git_diff e.git))) ∧
    (runDirectCommit d fd).networkCalls ≤ 1 := by
  refine ⟨?_, fun h2 => runCaaCommit_retry_inv e s f h2, ?_⟩
  · unfold runCaaCommit
    repeat' split
    all_goals (dsimp only; omega)
  · unfold runDirectCommit
    repeat' split
    all_goals (dsimp only; omega)

/-- A `caa.py` invocation whose first agent run raises a JSON
deserialization error and whose retry succeeds. -/
def caaRetryEnv : CaaEnv :=
  { configPresent := true
    providerName := "deepseek".data
    commitCfg := sampleConfig
    env := dsKeyEnv
    agentInitOk := true
    git := GitState.repo true ("line1\nline2".data) false []
    firstRun := AgentOutcome.err ("Failed to deserialize the JSON body".data)
    secondRun := AgentOutcome.ok ("feat: y".data) }

/-- C8 witness: a concrete retry run, with the inner implication
discharged at it. -/
theorem C8_witness :
    (runCaaCommit caaRetryEnv false false).networkCalls ≤ 2 ∧
    (false = false ∧ ∃ err, caaRetryEnv.firstRun = AgentOutcome.err err ∧
      jsonErrCond err = true ∧
      (runCaaCommit caaRetryEnv false false).retryDiff =
        some (truncateDiff (get_git_diff caaRetryEnv.git))) ∧
    (runDirectCommit dsDirectEnv false).networkCalls ≤ 1 :=
  ⟨(C8_at_most_two_calls caaRetryEnv dsDirectEnv false false false).1,
   (C8_at_most_two_calls caaRetryEnv dsDirectEnv false false false).2.1 (by decide),
   (C8_at_most_two_calls caaRetryEnv dsDirectEnv false false false).2.2⟩

/-- C2 (amended): `caa.py` reads the key from
`uppercase(provider name) + "_API_KEY"` at the key branch and, when it is
falsy, exits fatally with no network call; the direct-API module instead
always reads `DEEPSEEK_API_KEY` regardless of provider: its commit exits
fatally with no network call when that variable is falsy (given a
non-empty diff), while `generate_pr_content` returns `(None, None)`
without exiting, so the `pr` command merely reports failure. -/
theorem C2_api_key_amended (e : CaaEnv) (d : DirectEnv)
    (env2 : List Char → Option (List Char)) (r : Option (List Char)) (s f fd : Bool) :
    (e.configPresent = true → get_git_diff e.git ≠ [] →
      truthy (e.env (apiKeyEnvVar e.providerName)) = false →
      (runCaaCommit e s f).envVarRead =
        some (pyUpper e.providerName ++ "_API_KEY".data) ∧
      (runCaaCommit e s f).exitCode = 1 ∧
      (runCaaCommit e s f).networkCalls = 0) ∧
    (d.configPresent = true → get_git_diff d.git ≠ [] →
      (runDirectCommit d fd).envVarRead = some deepseekKeyVar ∧
      (truthy (d.env deepseekKeyVar) = false →
        (runDirectCommit d fd).exitCode = 1 ∧
        (runDirectCommit d fd).networkCalls = 0)) ∧
    (truthy (env2 deepseekKeyVar) = false →
      generate_pr_content env2 r = ⟨deepseekKeyVar, none, none⟩ ∧
      prFailureReported (generate_pr_content env2 r) = true) := by
  refine ⟨fun h1 h2 h3 => ?_, fun h1 h2 => ?_, fun h3 => ?_⟩
  · unfold runCaaCommit
    rw [if_neg (by rw [h1]; decide), if_neg h2, if_pos h3]
    exact ⟨rfl, rfl, rfl⟩
  · unfold runDirectCommit
    rw [if_neg (by rw [h1]; decide), if_neg h2]
    by_cases htr : truthy (d.env deepseekKeyVar) = false
    · rw [if_pos htr]
      exact ⟨rfl, fun _ => ⟨rfl, rfl⟩⟩
    · rw [if_neg htr]
      refine ⟨?_, fun hcon => absurd hcon htr⟩
      cases d.apiResponse with
      | none => rfl
      | some msg =>
        dsimp only
        split <;> rfl
  · unfold generate_pr_content
    rw [if_pos h3]
    exact ⟨rfl, rfl⟩

/-- C2 witness: concrete runs through the amended statement — a `caa.py`
invocation with provider `deepseek`, a staged diff and no key exits 1
reading `DEEPSEEK_API_KEY` derived from the provider name; the direct
module does the same on its hard-coded variable; and the keyless pr path
reports failure without exiting. -/
theorem C2_witness :
    ((runCaaCommit { caaRetryEnv with env := noKeyEnv } false false).envVarRead =
        some (pyUpper ("deepseek".data) ++ "_API_KEY".data) ∧
      (runCaaCommit { caaRetryEnv with env := noKeyEnv } false false).exitCode = 1 ∧
      (runCaaCommit { caaRetryEnv with env := noKeyEnv } false false).networkCalls = 0) ∧
    ((runDirectCommit { dsDirectEnv with env := noKeyEnv } false).envVarRead =
        some deepseekKeyVar ∧
      (runDirectCommit { dsDirectEnv with env := noKeyEnv } false).exitCode = 1 ∧
      (runDirectCommit { dsDirectEnv with env := noKeyEnv } false).networkCalls = 0) ∧
    (generate_pr_content noKeyEnv none = ⟨deepseekKeyVar, none, none⟩ ∧
      prFailureReported (generate_pr_content noKeyEnv none) = true) :=
  ⟨(C2_api_key_amended { caaRetryEnv with env := noKeyEnv }
      { dsDirectEnv with env := noKeyEnv } noKeyEnv none false false false).1
      rfl (by decide) rfl,
   (let h := (C2_api_key_amended { caaRetryEnv with env := noKeyEnv }
      { dsDirectEnv with env := noKeyEnv } noKeyEnv none false false false).2.1
      rfl (by decide)
    ⟨h.1, h.2 rfl⟩),
   (C2_api_key_amended { caaRetryEnv with env := noKeyEnv }
      { dsDirectEnv with env := noKeyEnv } noKeyEnv none false false false).2.2 rfl⟩

/-- C10 witness: a concrete marker-free response with a non-empty parsed
title still reports failure. -/
theorem C10_witness :
    (generate_pr_content dsKeyEnv (some ("TITLE: Add caching".data))).description = some [] ∧
    (generate_pr_content dsKeyEnv (some ("TITLE: Add caching".data))).title =
      some (pyStrip (pyReplace titleTag [] ("TITLE: Add caching".data))) ∧
    prFailureReported (generate_pr_content dsKeyEnv (some ("TITLE: Add caching".data))) = true :=
  C10_missing_marker_fails dsKeyEnv ("TITLE: Add caching".data)
    (by decide) (by decide) (by decide)

end CommitAssistant
